import Mathlib

/-!
Verification of the computational core of `himena-stats`.

Python floats are embedded as exact rationals (`ℚ`); each definition mirrors
one function of the repository's source. Strings keep the literal values the
source produces.
-/

namespace HimenaStats

/-- Embedding of `pvalue_to_asterisks` (src/himena_stats/test_tools/_utils.py):
the tiered significance-asterisk encoding of a p-value. -/
def pvalue_to_asterisks (pval : ℚ) : String :=
  if pval > 0.05 then "n.s."
  else if pval > 0.01 then "*"
  else if pval > 0.001 then "**"
  else if pval > 0.0001 then "***"
  else "****"

/-- Number of asterisks in a significance code ("n.s." counts as zero);
used to order the tiers by significance. -/
def asteriskCount (s : String) : ℕ :=
  if s = "*" then 1
  else if s = "**" then 2
  else if s = "***" then 3
  else if s = "****" then 4
  else 0

/-- The asterisk count of the code of p, expressed directly by the tier
thresholds. -/
lemma asteriskCount_pvalue_to_asterisks (p : ℚ) :
    asteriskCount (pvalue_to_asterisks p) =
      if p > 0.05 then 0 else if p > 0.01 then 1
      else if p > 0.001 then 2 else if p > 0.0001 then 3 else 4 := by
  unfold pvalue_to_asterisks asteriskCount
  split_ifs <;> simp_all

end HimenaStats

namespace HimenaStats

/-- C1: the significance-asterisk mapping returns "n.s." iff p > 0.05,
"*" iff 0.01 < p ≤ 0.05, "**" iff 0.001 < p ≤ 0.01, "***" iff
0.0001 < p ≤ 0.001, and "****" iff p ≤ 0.0001; the boundary values are
exclusive lower bounds, so p = 0.05 maps to "*", p = 0.0501 to "n.s.",
p = 0.0099 to "**", p = 0.0011 to "**", and p = 0.00009 to "****". -/
theorem pvalue_to_asterisks_tiers (p : ℚ) :
    (pvalue_to_asterisks p = "n.s." ↔ p > 0.05) ∧
    (pvalue_to_asterisks p = "*" ↔ 0.01 < p ∧ p ≤ 0.05) ∧
    (pvalue_to_asterisks p = "**" ↔ 0.001 < p ∧ p ≤ 0.01) ∧
    (pvalue_to_asterisks p = "***" ↔ 0.0001 < p ∧ p ≤ 0.001) ∧
    (pvalue_to_asterisks p = "****" ↔ p ≤ 0.0001) ∧
    pvalue_to_asterisks (0.05 : ℚ) = "*" ∧
    pvalue_to_asterisks (0.0501 : ℚ) = "n.s." ∧
    pvalue_to_asterisks (0.0099 : ℚ) = "**" ∧
    pvalue_to_asterisks (0.0011 : ℚ) = "**" ∧
    pvalue_to_asterisks (0.00009 : ℚ) = "****" := by
  unfold pvalue_to_asterisks
  refine ⟨?_, ?_, ?_, ?_, ?_, by norm_num, by norm_num, by norm_num, by norm_num, by norm_num⟩ <;>
    split_ifs with h1 h2 h3 h4 <;>
    simp_all <;> intros <;> linarith

/-- C10: the significance-asterisk mapping is total (its value is always one
of the five codes) and antitone: p1 ≤ p2 implies the asterisk count of the
code of p1 is at least that of the code of p2. -/
theorem pvalue_to_asterisks_total_antitone (p1 p2 : ℚ) (h : p1 ≤ p2) :
    (pvalue_to_asterisks p1 = "n.s." ∨ pvalue_to_asterisks p1 = "*" ∨
     pvalue_to_asterisks p1 = "**" ∨ pvalue_to_asterisks p1 = "***" ∨
     pvalue_to_asterisks p1 = "****") ∧
    asteriskCount (pvalue_to_asterisks p2) ≤ asteriskCount (pvalue_to_asterisks p1) := by
  constructor
  · unfold pvalue_to_asterisks
    split_ifs <;> simp
  · rw [asteriskCount_pvalue_to_asterisks, asteriskCount_pvalue_to_asterisks]
    split_ifs <;> first | rfl | omega | linarith

/-- Witness for C10 at p1 = 0.0005, p2 = 0.03. -/
theorem pvalue_to_asterisks_total_antitone_witness :
    (pvalue_to_asterisks (0.0005 : ℚ) = "n.s." ∨ pvalue_to_asterisks (0.0005 : ℚ) = "*" ∨
     pvalue_to_asterisks (0.0005 : ℚ) = "**" ∨ pvalue_to_asterisks (0.0005 : ℚ) = "***" ∨
     pvalue_to_asterisks (0.0005 : ℚ) = "****") ∧
    asteriskCount (pvalue_to_asterisks (0.03 : ℚ)) ≤
      asteriskCount (pvalue_to_asterisks (0.0005 : ℚ)) :=
  pvalue_to_asterisks_total_antitone (0.0005 : ℚ) (0.03 : ℚ) (by norm_num)

end HimenaStats

namespace HimenaStats

/-- Embedding of `_pval_matrix` (src/himena_stats/test_tools/_multiple.py): the
final contents of the (size+1) x (size+1) string array it builds. `pvalues`
gives the pairwise p-value matrix entry (i, j); `fmt` stands for Python's
`format(x, ".5g")` (5-significant-digit formatting, an external builtin);
cells the code never writes keep the empty string that `np.zeros` with a
string dtype initializes. -/
def pval_matrix (pvalues : ℕ → ℕ → ℚ) (size : ℕ) (columns : List String)
    (fmt : ℚ → String) : List (List String) :=
  (List.range (size + 1)).map fun i =>
    (List.range (size + 1)).map fun j =>
      if i = 0 then (if j = 0 then "" else columns.getD (j - 1) "")
      else if j = 0 then columns.getD (i - 1) ""
      else if i > j then pvalue_to_asterisks (pvalues (i - 1) (j - 1))
      else if i = j then "1.0"
      else fmt (pvalues (i - 1) (j - 1))

/-- The cell of a row-major string matrix at (i, j), defaulting to "". -/
def cellAt (m : List (List String)) (i j : ℕ) : String :=
  (m.getD i []).getD j ""

lemma pval_matrix_cell (pvalues : ℕ → ℕ → ℚ) (size : ℕ) (columns : List String)
    (fmt : ℚ → String) (i j : ℕ) (hi : i < size + 1) (hj : j < size + 1) :
    cellAt (pval_matrix pvalues size columns fmt) i j =
      if i = 0 then (if j = 0 then "" else columns.getD (j - 1) "")
      else if j = 0 then columns.getD (i - 1) ""
      else if i > j then pvalue_to_asterisks (pvalues (i - 1) (j - 1))
      else if i = j then "1.0"
      else fmt (pvalues (i - 1) (j - 1)) := by
  have hi' : i < ((List.range (size + 1)).map fun i =>
      (List.range (size + 1)).map fun j =>
        if i = 0 then (if j = 0 then "" else columns.getD (j - 1) "")
        else if j = 0 then columns.getD (i - 1) ""
        else if i > j then pvalue_to_asterisks (pvalues (i - 1) (j - 1))
        else if i = j then "1.0"
        else fmt (pvalues (i - 1) (j - 1))).length := by
    simpa using hi
  rw [cellAt, pval_matrix, List.getD_eq_getElem _ _ hi', List.getElem_map,
    List.getElem_range]
  have hj' : j < ((List.range (size + 1)).map fun jj =>
      if i = 0 then (if jj = 0 then "" else columns.getD (jj - 1) "")
      else if jj = 0 then columns.getD (i - 1) ""
      else if i > jj then pvalue_to_asterisks (pvalues (i - 1) (jj - 1))
      else if i = jj then "1.0"
      else fmt (pvalues (i - 1) (jj - 1))).length := by
    simpa using hj
  rw [List.getD_eq_getElem _ _ hj', List.getElem_map, List.getElem_range]

end HimenaStats

namespace HimenaStats

/-- C2: for an n x n matrix of pairwise p-values and n group labels,
`_pval_matrix` builds an (n+1) x (n+1) string matrix whose row 0 (from
column 1) and column 0 (from row 1) hold the labels, whose diagonal cells
(i,i) for 1 ≤ i ≤ n hold "1.0", whose strictly-lower-triangle cells hold
the significance-asterisk code of the raw p-value of groups (i-1, j-1), and
whose strictly-upper-triangle cells hold the same pair's p-value rendered by
the 5-significant-digit formatter; for size 3 with labels A, B, C row 0 is
["", "A", "B", "C"]. -/
theorem pval_matrix_spec (pvalues : ℕ → ℕ → ℚ) (n : ℕ) (columns : List String)
    (fmt : ℚ → String) (hc : columns.length = n) :
    (pval_matrix pvalues n columns fmt).length = n + 1 ∧
    (∀ row ∈ pval_matrix pvalues n columns fmt, row.length = n + 1) ∧
    (∀ j, 1 ≤ j → j ≤ n →
      cellAt (pval_matrix pvalues n columns fmt) 0 j = columns.getD (j - 1) "") ∧
    (∀ i, 1 ≤ i → i ≤ n →
      cellAt (pval_matrix pvalues n columns fmt) i 0 = columns.getD (i - 1) "") ∧
    (∀ i, 1 ≤ i → i ≤ n →
      cellAt (pval_matrix pvalues n columns fmt) i i = "1.0") ∧
    (∀ i j, 1 ≤ j → j < i → i ≤ n →
      cellAt (pval_matrix pvalues n columns fmt) i j =
        pvalue_to_asterisks (pvalues (i - 1) (j - 1))) ∧
    (∀ i j, 1 ≤ i → i < j → j ≤ n →
      cellAt (pval_matrix pvalues n columns fmt) i j = fmt (pvalues (i - 1) (j - 1))) ∧
    (pval_matrix pvalues 3 ["A", "B", "C"] fmt).getD 0 [] = ["", "A", "B", "C"] := by
  refine ⟨?_, ?_, ?_, ?_, ?_, ?_, ?_, ?_⟩
  · simp [pval_matrix]
  · intro row hrow
    rw [pval_matrix] at hrow
    obtain ⟨i, _, rfl⟩ := List.mem_map.mp hrow
    simp
  · intro j h1 h2
    rw [pval_matrix_cell _ _ _ _ _ _ (by omega) (by omega)]
    simp [show j ≠ 0 by omega]
  · intro i h1 h2
    rw [pval_matrix_cell _ _ _ _ _ _ (by omega) (by omega)]
    simp [show i ≠ 0 by omega]
  · intro i h1 h2
    rw [pval_matrix_cell _ _ _ _ _ _ (by omega) (by omega)]
    simp [show i ≠ 0 by omega]
  · intro i j h1 h2 h3
    rw [pval_matrix_cell _ _ _ _ _ _ (by omega) (by omega)]
    simp [show i ≠ 0 by omega, show j ≠ 0 by omega, h2]
  · intro i j h1 h2 h3
    rw [pval_matrix_cell _ _ _ _ _ _ (by omega) (by omega)]
    simp [show i ≠ 0 by omega, show j ≠ 0 by omega, show ¬ j < i by omega,
      show i ≠ j by omega]
  · rfl

/-- Witness for C2 at n = 3, labels ["A", "B", "C"], constant p-values and a
constant formatter: the diagonal cell (2,2) is "1.0". -/
theorem pval_matrix_spec_witness :
    cellAt (pval_matrix (fun _ _ => (0.03 : ℚ)) 3 ["A", "B", "C"] (fun _ => "p")) 2 2
      = "1.0" :=
  (pval_matrix_spec (fun _ _ => (0.03 : ℚ)) 3 ["A", "B", "C"] (fun _ => "p")
    rfl).2.2.2.2.1 2 (by omega) (by omega)

end HimenaStats

namespace HimenaStats

/-- Modelled from the spec: `OrderedSet` (from the external `himena` package,
not part of this repository's sources) collects the distinct elements of a
sequence, "preserving the order each label is first encountered". -/
def orderedSet {α : Type} [DecidableEq α] : List α → List α
  | [] => []
  | x :: l => x :: (orderedSet l).filter fun y => decide (y ≠ x)

/-- Embedding of the grouped branch of `_values_groups_to_arrays`
(src/himena_stats/test_tools/_multiple.py): one named array per distinct
label of the group column, in first-encounter order, named by the label's
string form (`str(uval)`, abstracted as `toStr`) and holding the values at
the positions where the group column equals that label (the boolean-mask
selection `val.array[col.array == uval]`). -/
def values_groups_to_arrays {α : Type} [DecidableEq α] (toStr : α → String)
    (col : List α) (val : List ℚ) : List (String × List ℚ) :=
  (orderedSet col).map fun u =>
    (toStr u, ((col.zip val).filter fun p => decide (p.1 = u)).map Prod.snd)

lemma orderedSet_nodup {α : Type} [DecidableEq α] (l : List α) :
    (orderedSet l).Nodup := by
  induction l with
  | nil => simp [orderedSet]
  | cons x l ih =>
    rw [orderedSet, List.nodup_cons]
    refine ⟨?_, ih.filter _⟩
    intro hmem
    have := List.mem_filter.mp hmem
    simp at this

lemma mem_orderedSet {α : Type} [DecidableEq α] {x : α} {l : List α} :
    x ∈ orderedSet l ↔ x ∈ l := by
  induction l with
  | nil => simp [orderedSet]
  | cons y l ih =>
    rw [orderedSet]
    by_cases hxy : x = y
    · simp [hxy]
    · simp [hxy, List.mem_filter, ih]

lemma orderedSet_sublist {α : Type} [DecidableEq α] (l : List α) :
    List.Sublist (orderedSet l) l := by
  induction l with
  | nil => simp [orderedSet]
  | cons x l ih =>
    rw [orderedSet]
    exact ((List.filter_sublist _).trans ih).cons₂ x

lemma fibers_flatten_perm {α : Type} [DecidableEq α] (d : List α) :
    ∀ L : List (α × ℚ), d.Nodup → (∀ p ∈ L, p.1 ∈ d) →
      List.Perm ((d.map fun u => L.filter fun p => decide (p.1 = u)).flatten) L := by
  induction d with
  | nil =>
    intro L _ hcov
    have hL : L = [] := by
      cases L with
      | nil => rfl
      | cons p L => exact absurd (hcov p (by simp)) (by simp)
    simp [hL]
  | cons u d ih =>
    intro L hnd hcov
    rw [List.nodup_cons] at hnd
    have hmap : (d.map fun v => L.filter fun p => decide (p.1 = v)) =
        d.map fun v =>
          (L.filter fun p => ! decide (p.1 = u)).filter fun p => decide (p.1 = v) := by
      refine List.map_congr_left ?_
      intro v hv
      rw [List.filter_filter]
      refine List.filter_congr ?_
      intro p _
      by_cases hpv : p.1 = v
      · have hvu : v ≠ u := by
          intro hvu
          exact hnd.1 (hvu ▸ hv)
        simp [hpv, hvu]
      · simp [hpv]
    have htail :
        List.Perm ((d.map fun v =>
            (L.filter fun p => ! decide (p.1 = u)).filter fun p => decide (p.1 = v)).flatten)
          (L.filter fun p => ! decide (p.1 = u)) := by
      refine ih _ hnd.2 ?_
      intro p hp
      have hmem := List.mem_filter.mp hp
      have hpu : p.1 ≠ u := by simpa using hmem.2
      have := hcov p hmem.1
      simp [hpu] at this
      exact this
    have heq : ((u :: d).map fun v => L.filter fun p => decide (p.1 = v)).flatten
        = (L.filter fun p => decide (p.1 = u)) ++
            (d.map fun v =>
              (L.filter fun p => ! decide (p.1 = u)).filter fun p =>
                decide (p.1 = v)).flatten := by
      rw [List.map_cons, List.flatten_cons, hmap]
    rw [heq]
    exact (htail.append_left _).trans (List.filter_append_perm _ L)

end HimenaStats

namespace HimenaStats

/-- C8: grouped extraction partitions the values by the distinct labels of
the group column in first-encounter order (the labels of the output are the
ordered distinct labels — duplicate-free, a subsequence of the column, and
containing each label of the column — and the concatenated group values are
a permutation of the input values), each sample is named by its label's
string form, and on labels ["a","b","a","c"] with values [1,2,3,4] it yields
"a" with [1,3], then "b" with [2], then "c" with [4]. -/
theorem values_groups_to_arrays_spec {α : Type} [DecidableEq α]
    (toStr : α → String) (col : List α) (val : List ℚ)
    (h : col.length = val.length) :
    ((values_groups_to_arrays toStr col val).map Prod.fst =
      (orderedSet col).map toStr) ∧
    (orderedSet col).Nodup ∧
    (∀ x, x ∈ orderedSet col ↔ x ∈ col) ∧
    List.Sublist (orderedSet col) col ∧
    List.Perm (((values_groups_to_arrays toStr col val).map Prod.snd).flatten) val ∧
    values_groups_to_arrays (fun s => s) ["a", "b", "a", "c"]
        [(1 : ℚ), 2, 3, 4] =
      [("a", [1, 3]), ("b", [2]), ("c", [4])] := by
  refine ⟨?_, orderedSet_nodup col, fun x => mem_orderedSet, orderedSet_sublist col,
    ?_, by decide⟩
  · simp [values_groups_to_arrays]
  · have hperm := fibers_flatten_perm (orderedSet col) (col.zip val)
      (orderedSet_nodup col) ?_
    · have hmap := hperm.map Prod.snd
      rw [List.map_flatten, List.map_map] at hmap
      rw [List.map_snd_zip col val (le_of_eq h.symm)] at hmap
      rw [values_groups_to_arrays, List.map_map]
      simpa [Function.comp] using hmap
    · intro p hp
      exact mem_orderedSet.mpr (List.of_mem_zip hp).1

end HimenaStats

namespace HimenaStats

/-- Witness for C8 on labels ["a","b","a","c"] and values [1,2,3,4]: the
sample list is "a" with [1,3], "b" with [2], "c" with [4]. -/
theorem values_groups_to_arrays_spec_witness :
    values_groups_to_arrays (fun s => s) ["a", "b", "a", "c"]
        [(1 : ℚ), 2, 3, 4] =
      [("a", [1, 3]), ("b", [2]), ("c", [4])] :=
  (values_groups_to_arrays_spec (fun s => s) ["a", "b", "a", "c"]
    [(1 : ℚ), 2, 3, 4] rfl).2.2.2.2.2

end HimenaStats

namespace HimenaStats

/-- A Python value flowing through `run_t_test`: either a raw selection
descriptor (a pair of (start, stop) index ranges, the value a
`SelectionEdit` widget supplies for the parameters `a` and `b`) or a numeric
sample array extracted from the table by `model_to_xy_arrays`. -/
inductive PyVal where
  | sel : (ℤ × ℤ) × (ℤ × ℤ) → PyVal
  | arr : List ℚ → PyVal
deriving DecidableEq

/-- Embedding of the `kind = "F"` branch of `run_t_test`
(src/himena_stats/test_tools/_single.py): the pair of arguments the code
passes to `stats.f_oneway` is the raw parameters `a` and `b` — the selection
descriptors — not the extracted arrays `x0.array` and `y0[0].array`. -/
def run_t_test_f_oneway_args (a b : (ℤ × ℤ) × (ℤ × ℤ)) : PyVal × PyVal :=
  (PyVal.sel a, PyVal.sel b)

/-- Embedding of the method-selection logic of `run_t_test`: in "F" mode the
kind becomes "Student" when the supplied F-test p-value is strictly below
`f_threshold`, and "Welch" otherwise; explicit kinds are kept unchanged. -/
def run_t_test_select_kind (kind : String) (f_pvalue f_threshold : ℚ) : String :=
  if kind = "F" then (if f_pvalue < f_threshold then "Student" else "Welch")
  else kind

/-- Embedding of `_ttest_result_to_model` with the extra rows `run_t_test`
appends: the result table rows, ending with the ["kind", kind] and
["comparison", comparison] metadata rows. -/
def run_t_test_result_rows (pvalStr astStr statStr dfStr kind comparison : String) :
    List (List String) :=
  [["p-value", pvalStr], ["", astStr], ["t-statistic", statStr],
   ["degrees of freedom", dfStr], ["kind", kind], ["comparison", comparison]]

/-- C3 (code bug): in automatic mode the arguments `run_t_test` hands to the
F-test are the raw selection descriptors `a` and `b`, never the extracted
sample arrays; given an F p-value, strictly below the threshold selects
"Student", otherwise "Welch", and the selected kind is recorded in the
result rows. -/
theorem run_t_test_f_mode_args_are_selections :
    run_t_test_f_oneway_args ((0, 5), (0, 1)) ((0, 5), (1, 2)) =
      (PyVal.sel ((0, 5), (0, 1)), PyVal.sel ((0, 5), (1, 2))) ∧
    (∀ xs : List ℚ,
      (run_t_test_f_oneway_args ((0, 5), (0, 1)) ((0, 5), (1, 2))).1 ≠ PyVal.arr xs) ∧
    (∀ ys : List ℚ,
      (run_t_test_f_oneway_args ((0, 5), (0, 1)) ((0, 5), (1, 2))).2 ≠ PyVal.arr ys) ∧
    run_t_test_select_kind "F" 0.01 0.05 = "Student" ∧
    run_t_test_select_kind "F" 0.2 0.05 = "Welch" ∧
    run_t_test_select_kind "F" 0.05 0.05 = "Welch" ∧
    ["kind", "Student"] ∈ run_t_test_result_rows "0.01" "*" "2.5" "8"
      (run_t_test_select_kind "F" 0.01 0.05) "x vs y" := by
  refine ⟨rfl, ?_, ?_, by norm_num [run_t_test_select_kind],
    by norm_num [run_t_test_select_kind], by norm_num [run_t_test_select_kind], ?_⟩
  · intro xs hxs
    simp [run_t_test_f_oneway_args] at hxs
  · intro ys hys
    simp [run_t_test_f_oneway_args] at hys
  · have h : run_t_test_select_kind "F" 0.01 0.05 = "Student" := by
      norm_num [run_t_test_select_kind]
    rw [run_t_test_result_rows, h]
    simp

end HimenaStats

namespace HimenaStats

/-- The structured extraction errors of the spec's taxonomy (spec section 7). -/
inductive ExtractError where
  | sampleSizeMismatch
  | invalidSelection (msg : String)
deriving DecidableEq

/-- Modelled from the spec: `model_to_xy_arrays` (external `himena` package)
restricted to its `same_size` check — "If `same_size_required` and
`len(a) != len(b)`, fails with `SampleSizeMismatchError`"; otherwise the two
extracted samples are returned. -/
def model_to_xy_arrays (same_size : Bool) (a b : List ℚ) :
    Except ExtractError (List ℚ × List ℚ) :=
  if same_size && decide (a.length ≠ b.length) then .error .sampleSizeMismatch
  else .ok (a, b)

/-- The `same_size` flag `run_t_test` (independent t-test) passes
(src/himena_stats/test_tools/_single.py, line 43). -/
def run_t_test_same_size : Bool := false

/-- The `same_size` flag the paired-t-test runner passes
(src/himena_stats/test_tools/_single.py, line 86). -/
def paired_t_test_same_size : Bool := true

/-- The `same_size` flag `run_wilcoxon_test` passes
(src/himena_stats/test_tools/_single.py, line 121). -/
def run_wilcoxon_test_same_size : Bool := false

/-- The `same_size` flag `run_mann_whitney_u_test` passes
(src/himena_stats/test_tools/_single.py, line 161). -/
def mann_whitney_u_test_same_size : Bool := false

/-- C4 counterexample: the Wilcoxon runner passes `same_size=False`, so with
samples of length 5 and 6 its extraction succeeds without raising
`SampleSizeMismatchError`, contradicting the claim that the equal-size
requirement holds for the Wilcoxon signed-rank test. -/
theorem wilcoxon_same_size_counterexample :
    run_wilcoxon_test_same_size = false ∧
    model_to_xy_arrays run_wilcoxon_test_same_size
        [(1 : ℚ), 2, 3, 4, 5] [(1 : ℚ), 2, 3, 4, 5, 6] =
      Except.ok ([(1 : ℚ), 2, 3, 4, 5], [(1 : ℚ), 2, 3, 4, 5, 6]) := by
  constructor
  · rfl
  · rfl

/-- C4 (amended): extraction with the equal-size requirement fails with
`SampleSizeMismatchError` whenever the sample lengths differ — in
particular for lengths 5 and 6; of the four runners only the paired t-test
requests the requirement, while the Wilcoxon signed-rank runner and both
independent-sample runners pass `same_size=False` (so their extraction
succeeds on unequal lengths and any mismatch surfaces only from the
underlying scipy routine). -/
theorem same_size_requirement_spec (a b : List ℚ) (h : a.length ≠ b.length) :
    model_to_xy_arrays true a b = Except.error ExtractError.sampleSizeMismatch ∧
    paired_t_test_same_size = true ∧
    model_to_xy_arrays paired_t_test_same_size a b =
      Except.error ExtractError.sampleSizeMismatch ∧
    run_wilcoxon_test_same_size = false ∧
    model_to_xy_arrays run_wilcoxon_test_same_size a b = Except.ok (a, b) ∧
    run_t_test_same_size = false ∧
    mann_whitney_u_test_same_size = false ∧
    model_to_xy_arrays true [(1 : ℚ), 2, 3, 4, 5] [(1 : ℚ), 2, 3, 4, 5, 6] =
      Except.error ExtractError.sampleSizeMismatch := by
  refine ⟨?_, rfl, ?_, rfl, ?_, rfl, rfl, rfl⟩ <;>
    simp [model_to_xy_arrays, paired_t_test_same_size, run_wilcoxon_test_same_size, h]

/-- Witness for C4 at samples of length 5 and 6. -/
theorem same_size_requirement_spec_witness :
    ([(1 : ℚ), 2, 3, 4, 5].length ≠ [(1 : ℚ), 2, 3, 4, 5, 6].length) ∧
    model_to_xy_arrays true [(1 : ℚ), 2, 3, 4, 5] [(1 : ℚ), 2, 3, 4, 5, 6] =
      Except.error ExtractError.sampleSizeMismatch :=
  ⟨by decide,
    (same_size_requirement_spec [(1 : ℚ), 2, 3, 4, 5] [(1 : ℚ), 2, 3, 4, 5, 6]
      (by decide)).1⟩

end HimenaStats

namespace HimenaStats

lemma foldl_min_mem (x : ℚ) (xs : List ℚ) : xs.foldl min x ∈ x :: xs := by
  induction xs generalizing x with
  | nil => simp
  | cons y ys ih =>
    rw [List.foldl_cons]
    rcases List.mem_cons.mp (ih (min x y)) with h | h
    · rcases min_choice x y with hm | hm <;> rw [hm] at h ⊢ <;> simp [h]
    · simp [h]

lemma foldl_min_le (x : ℚ) (xs : List ℚ) : ∀ q ∈ x :: xs, xs.foldl min x ≤ q := by
  induction xs generalizing x with
  | nil =>
    intro q hq
    simp at hq
    simp [hq]
  | cons y ys ih =>
    intro q hq
    rw [List.foldl_cons]
    rcases List.mem_cons.mp hq with rfl | hq'
    · exact le_trans (ih (min q y) (min q y) (by simp)) (min_le_left q y)
    · rcases List.mem_cons.mp hq' with rfl | hq2
      · exact le_trans (ih (min x q) (min x q) (by simp)) (min_le_right x q)
      · exact ih (min x y) q (by simp [hq2])

lemma foldl_max_mem (x : ℚ) (xs : List ℚ) : xs.foldl max x ∈ x :: xs := by
  induction xs generalizing x with
  | nil => simp
  | cons y ys ih =>
    rw [List.foldl_cons]
    rcases List.mem_cons.mp (ih (max x y)) with h | h
    · rcases max_choice x y with hm | hm <;> rw [hm] at h ⊢ <;> simp [h]
    · simp [h]

lemma foldl_le_max (x : ℚ) (xs : List ℚ) : ∀ q ∈ x :: xs, q ≤ xs.foldl max x := by
  induction xs generalizing x with
  | nil =>
    intro q hq
    simp at hq
    simp [hq]
  | cons y ys ih =>
    intro q hq
    rw [List.foldl_cons]
    rcases List.mem_cons.mp hq with rfl | hq'
    · exact le_trans (le_max_left q y) (ih (max q y) (max q y) (by simp))
    · rcases List.mem_cons.mp hq' with rfl | hq2
      · exact le_trans (le_max_right x q) (ih (max x q) (max x q) (by simp))
      · exact ih (max x y) q (by simp [hq2])

end HimenaStats

namespace HimenaStats

/-- Embedding of the dataframe branch of `_norm_obs`
(src/himena_stats/distributions/_construct.py): the guard is literally
`csl.start - csl.stop != 1`; when it passes, column `csl.start` of the frame
is read over the row slice and cast to the requested dtype. -/
def norm_obs_frame {α : Type} (df : List (List ℚ)) (rstart rstop cstart cstop : ℕ)
    (cast : ℚ → α) : Except String (List α) :=
  if (cstart : ℤ) - (cstop : ℤ) ≠ 1 then
    Except.error "Only single-column selection is allowed"
  else
    Except.ok ((((df.getD cstart []).drop rstart).take (rstop - rstart)).map cast)

/-- C5 (code bug): the dataframe branch of `_norm_obs` rejects every genuine
single-column selection (columns (c, c+1)) with the very message that claims
single-column selections are allowed, and its extraction succeeds exactly
when the column slice is the reversed pair (cstop + 1, cstop) — never when
exactly one column is selected. -/
theorem norm_obs_frame_guard_inverted :
    (∀ (df : List (List ℚ)) (rstart rstop c : ℕ) (cast : ℚ → ℚ),
      norm_obs_frame df rstart rstop c (c + 1) cast =
        Except.error "Only single-column selection is allowed") ∧
    norm_obs_frame [[(1 : ℚ), 2, 3]] 0 3 0 1 (fun q => q) =
      Except.error "Only single-column selection is allowed" ∧
    (∀ (df : List (List ℚ)) (rstart rstop cstart cstop : ℕ) (cast : ℚ → ℚ),
      (∃ v, norm_obs_frame df rstart rstop cstart cstop cast = Except.ok v) ↔
        cstart = cstop + 1) := by
  refine ⟨?_, ?_, ?_⟩
  · intro df rstart rstop c cast
    rw [norm_obs_frame, if_pos]
    push_cast
    omega
  · rw [norm_obs_frame, if_pos]
    norm_num
  · intro df rstart rstop cstart cstop cast
    constructor
    · rintro ⟨v, hv⟩
      by_cases hg : (cstart : ℤ) - (cstop : ℤ) ≠ 1
      · rw [norm_obs_frame, if_pos hg] at hv
        exact absurd hv (by simp)
      · omega
    · intro hc
      subst hc
      refine ⟨(((df.getD (cstop + 1) []).drop rstart).take (rstop - rstart)).map cast, ?_⟩
      rw [norm_obs_frame, if_neg]
      push_cast
      omega

end HimenaStats

namespace HimenaStats

/-- Truncation toward zero: the behavior of numpy's `astype(np.int64)` on a
float value. -/
def truncInt (q : ℚ) : ℤ := if 0 ≤ q then ⌊q⌋ else -⌊-q⌋

/-- Whether the frozen distribution exposes `pdf` (continuous) or only `pmf`
(discrete); `run_fit` derives it via `hasattr(dist, "pdf")`. -/
inductive DistKind where
  | continuous
  | discrete

/-- Embedding of the observation normalization of `run_fit`
(src/himena_stats/distributions/_construct.py): the extracted observations
are cast to float64 for continuous families (exact here) and to int64 for
discrete families — a silent truncation toward zero of non-integer values. -/
def run_fit_norm_obs (kind : DistKind) (obs : List ℚ) : List ℚ :=
  match kind with
  | DistKind.continuous => obs
  | DistKind.discrete => obs.map fun q => ((truncInt q : ℤ) : ℚ)

/-- Embedding of the bounds computation of `run_fit`: `arr.min()` and
`arr.max()` (numpy reductions, which raise an unstructured ValueError on an
empty array), then bounds loc = (min, max) and
scale = (dif / 10000, dif * 10) with dif = max - min. -/
def run_fit_bounds (arr : List ℚ) : Except String ((ℚ × ℚ) × (ℚ × ℚ)) :=
  match arr with
  | [] =>
    Except.error "zero-size array to reduction operation minimum which has no identity"
  | x :: xs =>
    let mn := xs.foldl min x
    let mx := xs.foldl max x
    Except.ok ((mn, mx), ((mx - mn) / 10000, (mx - mn) * 10))

/-- Embedding of the initial-guess selection of `run_fit`: the current
distribution's keyword parameters when `param_as_guess` is set, else no
guess. -/
def run_fit_guess (param_as_guess : Bool) (kwds : List (String × ℚ)) :
    Option (List (String × ℚ)) :=
  if param_as_guess then some kwds else none

/-- C6 counterexample: fitting a discrete family on the single non-integer
observation 3/2 raises no error at all — the int64 cast silently truncates
it to 1 and the fit proceeds — contradicting the claim that non-integer
observations for discrete families fail with InvalidObservationError and
that no silent substitution occurs. -/
theorem run_fit_discrete_truncation_counterexample :
    run_fit_norm_obs DistKind.discrete [(3 : ℚ)/2] = [(1 : ℚ)] ∧
    run_fit_bounds (run_fit_norm_obs DistKind.discrete [(3 : ℚ)/2]) =
      Except.ok ((1, 1), (0, 0)) ∧
    ¬ ∃ z : ℤ, ((3 : ℚ)/2) = (z : ℚ) := by
  have h1 : run_fit_norm_obs DistKind.discrete [(3 : ℚ)/2] = [(1 : ℚ)] := by
    norm_num [run_fit_norm_obs, truncInt]
  refine ⟨h1, ?_, ?_⟩
  · rw [h1]
    norm_num [run_fit_bounds]
  · rintro ⟨z, hz⟩
    have h2 : (3 : ℚ) = 2 * (z : ℚ) := by linarith
    have h3 : (3 : ℤ) = 2 * z := by exact_mod_cast h2
    omega

/-- C6 (amended): `run_fit` fails on an empty observation sequence — but
with numpy's unstructured zero-size-reduction error from `arr.min()`, not a
structured InvalidObservationError — and for discrete families it does not
reject non-integer observations: the int64 cast silently truncates every
observation toward zero (e.g. [3/2, -3/2] becomes [1, -1]) before fitting. -/
theorem run_fit_obs_handling (kind : DistKind) (obs : List ℚ) :
    run_fit_bounds (run_fit_norm_obs kind []) =
      Except.error "zero-size array to reduction operation minimum which has no identity" ∧
    (∀ q ∈ run_fit_norm_obs DistKind.discrete obs, ∃ z : ℤ, q = (z : ℚ)) ∧
    run_fit_norm_obs DistKind.discrete [(3 : ℚ)/2, -((3 : ℚ)/2)] =
      [(1 : ℚ), (-1 : ℚ)] := by
  refine ⟨?_, ?_, ?_⟩
  · cases kind <;> rfl
  · intro q hq
    rw [run_fit_norm_obs, List.mem_map] at hq
    obtain ⟨q0, _, rfl⟩ := hq
    exact ⟨truncInt q0, rfl⟩
  · have ht1 : truncInt ((3 : ℚ)/2) = 1 := by norm_num [truncInt]
    have ht2 : truncInt (-((3 : ℚ)/2)) = -1 := by norm_num [truncInt]
    simp [run_fit_norm_obs, ht1, ht2]

/-- Witness for C6 at the discrete observation list [7/2]: every normalized
observation is an integer. -/
theorem run_fit_obs_handling_witness :
    ∀ q ∈ run_fit_norm_obs DistKind.discrete [(7 : ℚ)/2], ∃ z : ℤ, q = (z : ℚ) :=
  (run_fit_obs_handling DistKind.discrete [(7 : ℚ)/2]).2.1

/-- C7: for a non-empty observation sequence, the fit's bounds constrain loc
to [min(observations), max(observations)] — the returned endpoints are
attained observations bounding every observation — and scale to
[range/10000, range*10]; the optimizer guess is exactly the current
parameters when `param_as_guess` is set, and absent otherwise. -/
theorem run_fit_bounds_guess_spec (x : ℚ) (xs : List ℚ)
    (kwds : List (String × ℚ)) :
    (∃ lo hi, run_fit_bounds (x :: xs) =
        Except.ok ((lo, hi), ((hi - lo) / 10000, (hi - lo) * 10)) ∧
      lo ∈ x :: xs ∧ hi ∈ x :: xs ∧
      (∀ q ∈ x :: xs, lo ≤ q ∧ q ≤ hi)) ∧
    run_fit_guess true kwds = some kwds ∧
    run_fit_guess false kwds = none := by
  refine ⟨⟨xs.foldl min x, xs.foldl max x, rfl, foldl_min_mem x xs, foldl_max_mem x xs,
    fun q hq => ⟨foldl_min_le x xs q hq, foldl_le_max x xs q hq⟩⟩, rfl, rfl⟩

end HimenaStats

namespace HimenaStats

/-- Modelled from the spec: `infer_edges`
(himena_stats.distributions._utils, a module of this repository that is not
among the provided sources) "returns the 0.1st and 99.9th percentile (via
`quantile`) as default plotting bounds". `ppf` is the distribution's
quantile function. -/
def infer_edges (ppf : ℚ → ℚ) : ℚ × ℚ := (ppf 0.001, ppf 0.999)

/-- Embedding of the edge computation of `QDistGraphics.set_dist`
(src/himena_stats/distributions/_widget.py): `xlow = dist.ppf(0.001)`,
`xhigh = dist.ppf(0.999)`. -/
def set_dist_edges (ppf : ℚ → ℚ) : ℚ × ℚ := (ppf 0.001, ppf 0.999)

/-- Embedding of the plotting-domain logic of `run_plot`
(src/himena_stats/distributions/_construct.py): the domain starts at
`infer_edges`; only when observations are supplied does the caller widen it
with `xlow = min(xlow, arr.min())` and `xhigh = max(xhigh, arr.max())`.
A non-empty observation array is carried as a head element plus a tail. -/
def run_plot_domain (ppf : ℚ → ℚ) (obs : Option (ℚ × List ℚ)) : ℚ × ℚ :=
  match obs with
  | none => infer_edges ppf
  | some (x, xs) =>
    (min (infer_edges ppf).1 (xs.foldl min x),
     max (infer_edges ppf).2 (xs.foldl max x))

/-- C9: domain inference returns (quantile(0.001), quantile(0.999)) — also
what the widget's `set_dist` computes — and it is the caller `run_plot`
that widens: with no observations the domain is exactly the inferred pair,
and with observations it becomes (min(low, min(obs)), max(high, max(obs))),
an interval that never shrinks and covers every observation. -/
theorem infer_edges_run_plot_spec (ppf : ℚ → ℚ) (x : ℚ) (xs : List ℚ) :
    infer_edges ppf = (ppf 0.001, ppf 0.999) ∧
    set_dist_edges ppf = infer_edges ppf ∧
    run_plot_domain ppf none = infer_edges ppf ∧
    run_plot_domain ppf (some (x, xs)) =
      (min (ppf 0.001) (xs.foldl min x), max (ppf 0.999) (xs.foldl max x)) ∧
    (run_plot_domain ppf (some (x, xs))).1 ≤ (infer_edges ppf).1 ∧
    (infer_edges ppf).2 ≤ (run_plot_domain ppf (some (x, xs))).2 ∧
    (∀ q ∈ x :: xs, (run_plot_domain ppf (some (x, xs))).1 ≤ q ∧
      q ≤ (run_plot_domain ppf (some (x, xs))).2) := by
  refine ⟨rfl, rfl, rfl, rfl, min_le_left _ _, le_max_left _ _, ?_⟩
  intro q hq
  exact ⟨le_trans (min_le_right _ _) (foldl_min_le x xs q hq),
    le_trans (foldl_le_max x xs q hq) (le_max_right _ _)⟩

end HimenaStats

namespace HimenaStats

/-- Witness for C1 at p = 0.03: the "n.s." tier characterization. -/
theorem pvalue_to_asterisks_tiers_witness :
    pvalue_to_asterisks (0.03 : ℚ) = "n.s." ↔ (0.03 : ℚ) > 0.05 :=
  (pvalue_to_asterisks_tiers (0.03 : ℚ)).1

/-- Witness for C3: in automatic mode an F p-value of 0.01 against the
default threshold selects "Student". -/
theorem run_t_test_f_mode_args_are_selections_witness :
    run_t_test_select_kind "F" 0.01 0.05 = "Student" :=
  run_t_test_f_mode_args_are_selections.2.2.2.1

/-- Witness for C5: the single-column dataframe selection (rows 0..3,
columns (0, 1)) is rejected. -/
theorem norm_obs_frame_guard_inverted_witness :
    norm_obs_frame [[(1 : ℚ), 2, 3]] 0 3 0 1 (fun q => q) =
      Except.error "Only single-column selection is allowed" :=
  norm_obs_frame_guard_inverted.2.1

/-- Witness for C7 at observations [1, 3] and empty parameter list. -/
theorem run_fit_bounds_guess_spec_witness :
    run_fit_guess true ([] : List (String × ℚ)) = some [] ∧
    run_fit_guess false ([] : List (String × ℚ)) = none :=
  (run_fit_bounds_guess_spec 1 [3] []).2

/-- Witness for C9 at the identity quantile function and observations
[2, 5]: with no observations the domain is the inferred pair. -/
theorem infer_edges_run_plot_spec_witness :
    run_plot_domain (fun q => q) none = infer_edges (fun q => q) :=
  (infer_edges_run_plot_spec (fun q => q) 2 [5]).2.2.1

end HimenaStats
